import Mathlib

/-!
Verification of the core of `internal/anna/anna.go`: the annotation parser
`extractMetaInformation`, the search orchestrator `FindBook`, and the
two-stage download protocol `(*Book).Download`.

Strings are modelled as `List Char` (`Str`). Go's byte indices coincide with
character indices for the operations used here (first occurrence of an ASCII
character, prefix tests, splitting on a fixed delimiter), so the character
level embedding is faithful for every claim below.
-/

set_option autoImplicit false

/-- Strings of the embedded program: lists of characters. -/
abbrev Str : Type := List Char

/-- Characters accepted by Go's `unicode.IsSpace` in the Latin-1 range
(`strings.TrimSpace` trims exactly these at both ends). -/
def isGoSpace (c : Char) : Bool :=
  c = ' ' || c = '\t' || c = '\n' || c = '\x0b' || c = '\x0c' || c = '\r' ||
  c = '\x85' || c = '\xa0'

/-- Go `strings.TrimSpace`: drop leading and trailing whitespace. -/
def trimSpace (s : Str) : Str :=
  ((s.dropWhile isGoSpace).reverse.dropWhile isGoSpace).reverse

/-- Go `strings.TrimLeft(s, cutset)`: drop leading characters that occur in
the cutset. -/
def trimLeftCutset (cutset : Str) (s : Str) : Str :=
  s.dropWhile (fun c => cutset.contains c)

/-- Boolean prefix test on character lists (Go `strings.HasPrefix`). -/
def isPrefixOfB : Str → Str → Bool
  | [], _ => true
  | _ :: _, [] => false
  | a :: as, b :: bs => a == b && isPrefixOfB as bs

/-- Go `strings.Index(s, sub)`: position of the first occurrence of `sub`
in `s`, `none` when absent (Go returns `-1` then). -/
def findSub (sub : Str) : Str → Option Nat
  | [] => if isPrefixOfB sub [] then some 0 else none
  | c :: rest =>
      if isPrefixOfB sub (c :: rest) then some 0
      else Option.map (· + 1) (findSub sub rest)

/-- Go `strings.Contains(s, sub)`. -/
def containsSub (s sub : Str) : Bool :=
  (findSub sub s).isSome

/-- Go `strings.TrimPrefix(s, pre)`: drop `pre` when it is a prefix of `s`,
otherwise return `s` unchanged. -/
def trimPrefixGo (s pre : Str) : Str :=
  if isPrefixOfB pre s then s.drop pre.length else s

/-- One step of Go `strings.Split` for a non-empty separator: cut at the
first occurrence of the separator, recurse on the remainder. `fuel` bounds
the recursion; every step consumes at least one character, so
`s.length + 1` steps always suffice. -/
def splitAux (sep : Str) : Nat → Str → List Str
  | 0, s => [s]
  | fuel + 1, s =>
      match findSub sep s with
      | none => [s]
      | some i => s.take i :: splitAux sep fuel (s.drop (i + sep.length))

/-- Go `strings.Split(s, sep)` for the non-empty separator used by the
annotation parser. -/
def splitOnList (sep s : Str) : List Str :=
  splitAux sep (s.length + 1) s

/-- The three-character segment delimiter of annotation strings (line 30 of
anna.go): a middle dot surrounded by spaces. -/
def metaDelim : Str := " · ".toList

/-- The segments of one annotation string (line 30: `strings.Split(meta, " · ")`). -/
def metaParts (meta : Str) : List Str :=
  splitOnList metaDelim meta

/-- The cutset of line 38 of anna.go: checkmark glyph and space. -/
def checkmarkSpace : Str := "✅ ".toList

/-- Lines 35-39 of anna.go: the language is read off the (already trimmed)
first segment; when `[` occurs at a position greater than zero, the text
before it is trimmed and stripped of the leading checkmark decoration,
otherwise the language stays empty. -/
def extractLanguage (languagePart : Str) : Str :=
  match findSub ['['] languagePart with
  | some idx =>
      if 0 < idx then trimLeftCutset checkmarkSpace (trimSpace (languagePart.take idx))
      else []
  | none => []

/-- Line 47 of anna.go: a trimmed segment is size-bearing when it contains
one of the substrings MB, KB, GB. -/
def hasSizeUnit (p : Str) : Bool :=
  containsSub p ("MB".toList) || containsSub p ("KB".toList) || containsSub p ("GB".toList)

/-- The loop condition of lines 45-47 at index `i` of the segment list. -/
def unitAt (parts : List Str) (i : Nat) : Bool :=
  hasSizeUnit (trimSpace (parts.getD i []))

/-- The scanning loop of lines 45-54 of anna.go: from index `i` upward,
return the first index whose trimmed segment is size-bearing. `fuel` bounds
the recursion; `parts.length` steps suffice when starting at index 1. -/
def sizeScanFuel (parts : List Str) : Nat → Nat → Option Nat
  | 0, _ => none
  | fuel + 1, i =>
      if i < parts.length then
        if unitAt parts i then some i else sizeScanFuel parts fuel (i + 1)
      else none

/-- The loop of lines 45-54 started at index 1, yielding `sizeIdx`
(`none` models the `-1` sentinel). The code sets `formatIdx := sizeIdx - 1`
at the same break, so only `sizeIdx` needs to be returned. -/
def sizeScan (parts : List Str) : Option Nat :=
  sizeScanFuel parts parts.length 1

/-- Lines 26-65 of anna.go: `extractMetaInformation(meta)` returning
`(language, format, size)`. The guards `formatIdx > 0 && formatIdx < len(parts)`
and `sizeIdx > 0 && sizeIdx < len(parts)` of lines 56-62 are kept verbatim,
with `formatIdx = sizeIdx - 1` as set at the loop break (lines 48-51). -/
def extractMetaInformation (meta : Str) : Str × Str × Str :=
  if (metaParts meta).length < 3 then ([], [], [])
  else
    (extractLanguage (trimSpace ((metaParts meta).getD 0 [])),
     match sizeScan (metaParts meta) with
     | none => []
     | some sizeIdx =>
         if 0 < sizeIdx - 1 ∧ sizeIdx - 1 < (metaParts meta).length
         then trimSpace ((metaParts meta).getD (sizeIdx - 1) []) else [],
     match sizeScan (metaParts meta) with
     | none => []
     | some sizeIdx =>
         if 0 < sizeIdx ∧ sizeIdx < (metaParts meta).length
         then trimSpace ((metaParts meta).getD sizeIdx []) else [])

example : extractMetaInformation "✅ English [en] · EPUB · 0.7MB · 2015".toList =
    ("English".toList, "EPUB".toList, "0.7MB".toList) := by decide

example : extractMetaInformation "✅ English [en] · Hindi [hi] · EPUB · 0.7MB · 2015".toList =
    ("English".toList, "EPUB".toList, "0.7MB".toList) := by decide

example : extractMetaInformation "EPUB · 0.7MB".toList = ([], [], []) := by decide

example : extractMetaInformation "x · 0.7MB · y".toList = ([], [], "0.7MB".toList) := by decide

/-! ### The record type and the search orchestrator `FindBook` -/

/-- Modelled from the spec: the `BookRecord` structure of spec section 3
(its Go declaration lives in a types file outside `src/`); field names follow
the Go accesses in anna.go lines 110-119. -/
structure Book where
  Language : Str
  Format : Str
  Size : Str
  Title : Str
  Publisher : Str
  Authors : Str
  URL : Str
  Hash : Str
deriving DecidableEq, Repr

/-- The record-path marker of the colly selector `a[href^='/md5/']` (line 76)
and of the `strings.TrimPrefix` call (line 108). -/
def md5Marker : Str := "/md5/".toList

/-- The class attribute value of line 78 that designates the primary anchor
(the cover-image link), filtering out the duplicate title link. -/
def primaryClass : Str := "custom-a block mr-2 sm:mr-4 hover:opacity-80".toList

/-- One scraped anchor fragment, carrying the attributes the `OnHTML`
callback reads (lines 76-81) and the structurally associated text blocks the
extraction loop reads from the surrounding DOM (lines 92-104). `absoluteURL`
stands for `e.Request.AbsoluteURL` (line 117), the page's base resolution. -/
structure Fragment where
  href : Str
  attrClass : Str
  titleText : Str
  authorsRaw : Str
  publisherRaw : Str
  metaText : Str
  absoluteURL : Str → Str

/-- Outcome of fetching the search page: a transport failure, or the page's
anchor fragments in page-rendering order. -/
inductive PageFetch where
  | fail (errMsg : Str)
  | page (frags : List Fragment)

/-- The selection performed by colly's selector and the callback of lines
76-81: the href starts with `/md5/` and the class is the primary one. -/
def isPrimaryAnchor (e : Fragment) : Bool :=
  isPrefixOfB md5Marker e.href && (e.attrClass == primaryClass)

/-- The loop body of lines 92-121 of anna.go: build one `Book` from one
collected fragment. -/
def parseFragment (e : Fragment) : Book :=
  { Language := (extractMetaInformation e.metaText).1
    Format := (extractMetaInformation e.metaText).2.1
    Size := (extractMetaInformation e.metaText).2.2
    Title := trimSpace e.titleText
    Publisher := trimSpace e.publisherRaw
    Authors := trimSpace e.authorsRaw
    URL := e.absoluteURL e.href
    Hash := trimPrefixGo e.href md5Marker }

/-- Lines 67-125 of anna.go: `FindBook(query)`. The query only feeds the
visited URL (line 87); the fetch outcome is an explicit input. The error
returned by `c.Visit` is discarded by the code (line 88) and no `OnError`
handler is registered, so a failed fetch simply leaves the fragment
accumulator empty, and line 124 returns the parsed list with a nil error. -/
def FindBook (query : Str) (fetch : PageFetch) : Except Str (List Book) :=
  Except.ok
    ((match fetch with
      | PageFetch.fail _ => []
      | PageFetch.page frags => frags.filter isPrimaryAnchor).map parseFragment)

/-! ### The two-stage download protocol `(*Book).Download` -/

/-- Modelled from the spec: the resolve-stage JSON response
(`fastDownloadResponse`, declared outside `src/`), with the `downloadURL`
and `error` fields of spec section 4.4 that lines 140-144 read. -/
structure FastDownloadResponse where
  downloadURL : Str
  error : Str
deriving DecidableEq, Repr

/-- Outcome of stage 1 as seen by lines 130-139: transport failure of
`http.Get`, JSON decoding failure, or a decoded response. -/
inductive ResolveOutcome where
  | transportErr (msg : Str)
  | decodeErr (msg : Str)
  | decoded (resp : FastDownloadResponse)

/-- Outcome of stage 2's `http.Get` (lines 147-151): transport failure, or a
response with a status code and body bytes. -/
inductive FetchOutcome where
  | transportErr (msg : Str)
  | resp (statusCode : Nat) (body : List Nat)

/-- Outcome of `io.Copy` (line 167): the whole body is streamed, or the copy
errors after `written` bytes. -/
inductive CopyOutcome where
  | complete
  | interrupted (written : Nat) (msg : Str)

/-- The external world of one `Download` call: the two HTTP exchanges, the
`os.Create` outcome (line 161), and the `io.Copy` outcome (line 167). -/
structure DownloadEnv where
  resolve : ResolveOutcome
  fetch : FetchOutcome
  createErr : Option Str
  copy : CopyOutcome

/-- The destination filesystem: an association of paths to file contents. -/
def FS : Type := List (Str × List Nat)

/-- Creating/overwriting a file: the path is bound to the new content,
any previous binding is dropped. -/
def fsWrite (fs : FS) (path : Str) (content : List Nat) : FS :=
  (path, content) :: fs.filter (fun pr => !(pr.1 == path))

/-- The content at a path, when a file exists there. -/
def fsLookup (fs : FS) (path : Str) : Option (List Nat) :=
  (fs.find? (fun pr => pr.1 == path)).map (fun pr => pr.2)

/-- Line 157-158 of anna.go: `filename := b.Title + "." + b.Format` followed
by `strings.ReplaceAll(filename, "/", "_")`. `ReplaceAll` on single
characters is a character map. -/
def downloadFilename (b : Book) : Str :=
  (b.Title ++ '.' :: b.Format).map (fun c => if c = '/' then '_' else c)

/-- Go `filepath.Join(dir, name)` on two elements, modelled without the
final lexical `filepath.Clean` pass (no claim depends on dot-segment
cleaning): non-empty elements joined by the separator. -/
def filepathJoin (dir name : Str) : Str :=
  if dir = [] then name else dir ++ '/' :: name

/-- Line 159 of anna.go: the destination path. -/
def downloadFilePath (b : Book) (folderPath : Str) : Str :=
  filepathJoin folderPath (downloadFilename b)

/-- Lines 127-169 of anna.go: `(*Book).Download(secretKey, folderPath)`,
returning the Go error (`none` = nil) and the resulting filesystem. The
`secretKey` only feeds the resolver URL of line 128. Order of operations is
the code's: resolve transport error (line 131), JSON decode error (line 137),
the empty-`downloadURL` branches (lines 140-145), fetch transport error
(line 148), the `StatusCode != http.StatusOK` check (line 153), `os.Create`
(line 161), `io.Copy` (line 167) — a copy error is returned after `os.Create`
already truncated/created the file, so the partial content stays on disk. -/
def Download (b : Book) (secretKey folderPath : Str) (env : DownloadEnv) (fs : FS) :
    Option Str × FS :=
  match env.resolve with
  | ResolveOutcome.transportErr msg => (some msg, fs)
  | ResolveOutcome.decodeErr msg => (some msg, fs)
  | ResolveOutcome.decoded apiResp =>
    if apiResp.downloadURL = [] then
      if apiResp.error ≠ [] then (some apiResp.error, fs)
      else (some ("failed to get download URL".toList), fs)
    else
      match env.fetch with
      | FetchOutcome.transportErr msg => (some msg, fs)
      | FetchOutcome.resp statusCode body =>
        if statusCode ≠ 200 then (some ("failed to download file".toList), fs)
        else
          match env.createErr with
          | some msg => (some msg, fs)
          | none =>
            match env.copy with
            | CopyOutcome.complete =>
                (none, fsWrite fs (downloadFilePath b folderPath) body)
            | CopyOutcome.interrupted written msg =>
                (some msg, fsWrite fs (downloadFilePath b folderPath) (body.take written))

/-! ### Lemmas about the size-scanning loop -/

theorem sizeScanFuel_eq_some (parts : List Str) :
    ∀ fuel k i, parts.length ≤ fuel + k → k ≤ i → i < parts.length →
    unitAt parts i = true → (∀ j, j < i → k ≤ j → unitAt parts j = false) →
    sizeScanFuel parts fuel k = some i := by
  intro fuel
  induction fuel with
  | zero => intro k i h1 h2 h3 _ _; omega
  | succ fuel ih =>
    intro k i h1 h2 h3 hu hmin
    show (if k < parts.length then
        (if unitAt parts k then some k else sizeScanFuel parts fuel (k + 1))
      else none) = some i
    rw [if_pos (by omega)]
    by_cases hk : unitAt parts k = true
    · have hki : k = i := by
        by_contra hne
        have hlt : k < i := by omega
        have hf := hmin k hlt (Nat.le_refl k)
        rw [hf] at hk
        exact Bool.noConfusion hk
      subst hki
      simp [hk]
    · have hkf : unitAt parts k = false := by
        cases h : unitAt parts k
        · rfl
        · exact absurd h hk
      have hki : k < i := by
        rcases Nat.lt_or_ge k i with h' | h'
        · exact h'
        · have : k = i := by omega
          rw [this, hu] at hkf
          exact Bool.noConfusion hkf
      rw [if_neg (by simp [hkf])]
      exact ih (k + 1) i (by omega) (by omega) h3 hu
        (fun j hj hkj => hmin j hj (by omega))

theorem sizeScanFuel_eq_none (parts : List Str) :
    ∀ fuel k, (∀ j, j < parts.length → k ≤ j → unitAt parts j = false) →
    sizeScanFuel parts fuel k = none := by
  intro fuel
  induction fuel with
  | zero => intro k _; rfl
  | succ fuel ih =>
    intro k hall
    show (if k < parts.length then
        (if unitAt parts k then some k else sizeScanFuel parts fuel (k + 1))
      else none) = none
    by_cases hk : k < parts.length
    · rw [if_pos hk]
      have hf := hall k hk (Nat.le_refl k)
      rw [if_neg (by simp [hf])]
      exact ih (k + 1) (fun j hj hkj => hall j hj (by omega))
    · rw [if_neg hk]

/-! ### Claims C5, C6, C7: the annotation parser -/

/-- C5: for every annotation string splitting into at least 3 segments,
with `i` the smallest index at least 1 whose trimmed segment contains
MB, KB or GB: the returned size is the trimmed segment at `i`, the returned
format is the trimmed segment at `i - 1` when `i ≥ 2` and empty when
`i = 1`; when no such index exists, format and size are both empty. The
statement is independent of how many language segments precede the format
segment. -/
theorem c5_format_size_thm (meta : Str) (h3 : 3 ≤ (metaParts meta).length) :
    (∀ i, i < (metaParts meta).length → 1 ≤ i → unitAt (metaParts meta) i = true →
      (∀ j, j < i → 1 ≤ j → unitAt (metaParts meta) j = false) →
      (extractMetaInformation meta).2.2 = trimSpace ((metaParts meta).getD i []) ∧
      (extractMetaInformation meta).2.1 =
        (if 2 ≤ i then trimSpace ((metaParts meta).getD (i - 1) []) else [])) ∧
    ((∀ j, j < (metaParts meta).length → 1 ≤ j → unitAt (metaParts meta) j = false) →
      (extractMetaInformation meta).2.1 = [] ∧ (extractMetaInformation meta).2.2 = []) := by
  constructor
  · intro i hi h1 hu hmin
    have hscan : sizeScan (metaParts meta) = some i :=
      sizeScanFuel_eq_some (metaParts meta) (metaParts meta).length 1 i
        (by omega) h1 hi hu (fun j hj hkj => hmin j hj hkj)
    unfold extractMetaInformation
    rw [if_neg (by omega)]
    rw [hscan]
    constructor
    · show (if 0 < i ∧ i < (metaParts meta).length then
          trimSpace ((metaParts meta).getD i []) else []) = _
      rw [if_pos ⟨by omega, hi⟩]
    · show (if 0 < i - 1 ∧ i - 1 < (metaParts meta).length then
          trimSpace ((metaParts meta).getD (i - 1) []) else []) = _
      by_cases h2 : 2 ≤ i
      · rw [if_pos ⟨by omega, by omega⟩, if_pos h2]
      · rw [if_neg (by omega), if_neg h2]
  · intro hall
    have hscan : sizeScan (metaParts meta) = none :=
      sizeScanFuel_eq_none (metaParts meta) (metaParts meta).length 1
        (fun j hj hkj => hall j hj hkj)
    unfold extractMetaInformation
    rw [if_neg (by omega)]
    rw [hscan]
    exact ⟨rfl, rfl⟩

/-- An annotation string used to instantiate the parser claims: two language
segments before format and size. -/
def exMeta : Str := "✅ English [en] · Hindi [hi] · EPUB · 0.7MB · 2015".toList

/-- C5 witness: on `exMeta` the first size-bearing index is 3, so size is
segment 3 and format is segment 2. -/
theorem c5_format_size_witness :
    (3 ≤ (metaParts exMeta).length ∧ unitAt (metaParts exMeta) 3 = true) ∧
    (extractMetaInformation exMeta).2.2 = trimSpace ((metaParts exMeta).getD 3 []) ∧
    (extractMetaInformation exMeta).2.1 =
      (if 2 ≤ 3 then trimSpace ((metaParts exMeta).getD (3 - 1) []) else []) := by
  refine ⟨⟨by decide, by decide⟩, ?_⟩
  exact (c5_format_size_thm exMeta (by decide)).1 3 (by decide) (by decide) (by decide)
    (by decide)

/-- C6: an annotation string with fewer than 3 segments yields empty
language, format and size; this is a return value, not an error. -/
theorem c6_short_meta_thm (meta : Str) (h : (metaParts meta).length < 3) :
    extractMetaInformation meta = ([], [], []) := by
  unfold extractMetaInformation
  rw [if_pos h]

/-- C6 witness: a two-segment annotation string parses to three empties. -/
theorem c6_short_meta_witness :
    (metaParts ("EPUB · 0.7MB".toList)).length < 3 ∧
    extractMetaInformation ("EPUB · 0.7MB".toList) = ([], [], []) :=
  ⟨by decide, c6_short_meta_thm ("EPUB · 0.7MB".toList) (by decide)⟩

/-- The language rule as the specification words it (spec section 4.1 step 2):
on the trimmed first segment, when `[` occurs at a position greater than
zero, the language is the text before the bracket, whitespace-trimmed and
stripped of the leading checkmark-and-space decoration; with no bracket the
language is left empty. -/
def languageOfSegment (seg : Str) : Str :=
  match findSub ['['] seg with
  | some idx =>
      if 0 < idx then trimLeftCutset checkmarkSpace (trimSpace (seg.take idx))
      else []
  | none => []

/-- C7: for every annotation string with at least 3 segments the returned
language is a function of the trimmed first segment alone — independent of
whether a size-bearing segment exists — and it follows the bracket rule:
bracket at a position greater than zero gives the decorated-stripped trimmed
text before it, no bracket gives the empty language. -/
theorem c7_language_thm (meta : Str) (h3 : 3 ≤ (metaParts meta).length) :
    (extractMetaInformation meta).1 =
      languageOfSegment (trimSpace ((metaParts meta).getD 0 [])) ∧
    (∀ idx, findSub ['['] (trimSpace ((metaParts meta).getD 0 [])) = some idx →
      0 < idx →
      (extractMetaInformation meta).1 =
        trimLeftCutset checkmarkSpace
          (trimSpace ((trimSpace ((metaParts meta).getD 0 [])).take idx))) ∧
    (findSub ['['] (trimSpace ((metaParts meta).getD 0 [])) = none →
      (extractMetaInformation meta).1 = []) := by
  have hfst : (extractMetaInformation meta).1 =
      extractLanguage (trimSpace ((metaParts meta).getD 0 [])) := by
    unfold extractMetaInformation
    rw [if_neg (by omega)]
  refine ⟨?_, ?_, ?_⟩
  · rw [hfst]; rfl
  · intro idx hidx hpos
    rw [hfst]
    unfold extractLanguage
    rw [hidx]
    show (if 0 < idx then trimLeftCutset checkmarkSpace
        (trimSpace ((trimSpace ((metaParts meta).getD 0 [])).take idx)) else []) = _
    rw [if_pos hpos]
  · intro hnone
    rw [hfst]
    unfold extractLanguage
    rw [hnone]

/-- C7 witness: on `exMeta` the bracket of the first segment sits at
position 10, and the language resolves through the bracket rule. -/
theorem c7_language_witness :
    (3 ≤ (metaParts exMeta).length ∧
      findSub ['['] (trimSpace ((metaParts exMeta).getD 0 [])) = some 10) ∧
    (extractMetaInformation exMeta).1 =
      trimLeftCutset checkmarkSpace
        (trimSpace ((trimSpace ((metaParts exMeta).getD 0 [])).take 10)) := by
  refine ⟨⟨by decide, by decide⟩, ?_⟩
  exact (c7_language_thm exMeta (by decide)).2.1 10 (by decide) (by decide)

/-! ### Claims C1, C2: the search orchestrator -/

/-- C1 counterexample: on a failed page fetch, `FindBook` returns the empty
record list together with a nil error (`Except.ok`), not a non-nil error —
line 88 of anna.go discards the `Visit` error and no `OnError` handler
exists, and line 124 unconditionally returns `nil`. -/
theorem c1_fetch_failure_counterexample :
    FindBook ("dune".toList) (PageFetch.fail ("connection refused".toList)) =
      Except.ok [] := by
  rfl

/-- C1 amended: a page-fetch failure is not propagated; `FindBook` then
returns the empty record list with a nil error, and in fact `FindBook` never
returns a non-nil error on any fetch outcome. -/
theorem c1_fetch_failure_amended_thm (query : Str) :
    (∀ msg : Str, FindBook query (PageFetch.fail msg) = Except.ok []) ∧
    (∀ fetch : PageFetch, ∃ books : List Book, FindBook query fetch = Except.ok books) := by
  constructor
  · intro msg; rfl
  · intro fetch
    cases fetch with
    | fail msg => exact ⟨[], rfl⟩
    | page frags => exact ⟨(frags.filter isPrimaryAnchor).map parseFragment, rfl⟩

/-- A primary-class fragment whose href is exactly the `/md5/` marker:
matched by the selector `a[href^='/md5/']`, accepted by the class check,
and carrying no identifier after the marker. -/
def bareFragment : Fragment :=
  { href := "/md5/".toList
    attrClass := primaryClass
    titleText := []
    authorsRaw := []
    publisherRaw := []
    metaText := []
    absoluteURL := fun s => s }

/-- C2 counterexample: the page holding only `bareFragment` makes `FindBook`
emit one record whose `Hash` is empty — the fragment is not skipped, so the
claimed invariant (every emitted record has a non-empty `Hash`) fails. -/
theorem c2_hash_counterexample :
    FindBook ("dune".toList) (PageFetch.page [bareFragment]) =
      Except.ok [parseFragment bareFragment] ∧
    (parseFragment bareFragment).Hash = [] := by
  exact ⟨rfl, rfl⟩

/-- C2 amended: an emitted record's `Hash` is its fragment's href with the
`/md5/` marker stripped; it is non-empty exactly when the href extends
strictly beyond the marker (so an href of exactly `/md5/` yields an emitted
record with an empty `Hash`); and no primary fragment is ever skipped: each
one's record appears in the returned list. -/
theorem c2_hash_amended_thm (e : Fragment) (h : isPrefixOfB md5Marker e.href = true) :
    (parseFragment e).Hash = e.href.drop md5Marker.length ∧
    ((parseFragment e).Hash ≠ [] ↔ md5Marker.length < e.href.length) ∧
    (∀ (query : Str) (frags : List Fragment) (books : List Book),
      e ∈ frags → isPrimaryAnchor e = true →
      FindBook query (PageFetch.page frags) = Except.ok books →
      parseFragment e ∈ books) := by
  have hhash : (parseFragment e).Hash = e.href.drop md5Marker.length := by
    show trimPrefixGo e.href md5Marker = _
    unfold trimPrefixGo
    rw [if_pos h]
  refine ⟨hhash, ?_, ?_⟩
  · rw [hhash]
    constructor
    · intro hne
      by_contra hle
      have : e.href.length ≤ md5Marker.length := by omega
      exact hne (List.drop_eq_nil_of_le this)
    · intro hlt hnil
      have := congrArg List.length hnil
      rw [List.length_drop] at this
      simp at this
      omega
  · intro query frags books hmem hprim hfb
    have hbooks : books = (frags.filter isPrimaryAnchor).map parseFragment := by
      unfold FindBook at hfb
      exact (Except.ok.inj hfb).symm
    rw [hbooks]
    exact List.mem_map_of_mem parseFragment (List.mem_filter.mpr ⟨hmem, hprim⟩)

/-- A primary fragment with a proper identifier, for the C2 witness. -/
def goodFragment : Fragment :=
  { href := "/md5/abc123".toList
    attrClass := primaryClass
    titleText := "Dune".toList
    authorsRaw := []
    publisherRaw := []
    metaText := []
    absoluteURL := fun s => s }

/-- C2 witness: the amended statement applied to `goodFragment`: its record
carries hash `abc123`, which is non-empty, and it is emitted. -/
theorem c2_hash_amended_witness :
    isPrefixOfB md5Marker goodFragment.href = true ∧
    (parseFragment goodFragment).Hash = goodFragment.href.drop md5Marker.length ∧
    parseFragment goodFragment ∈ [parseFragment goodFragment] := by
  refine ⟨by decide, (c2_hash_amended_thm goodFragment (by decide)).1, ?_⟩
  exact (c2_hash_amended_thm goodFragment (by decide)).2.2 ("dune".toList)
    [goodFragment] [parseFragment goodFragment] (List.mem_singleton.mpr rfl)
    (by decide) rfl

/-! ### Claims C3, C4, C8, C9, C10: the download protocol -/

/-- A sample located record used to instantiate the download claims. -/
def sampleBook : Book :=
  { Language := "English".toList
    Format := "epub".toList
    Size := "0.7MB".toList
    Title := "a/b".toList
    Publisher := []
    Authors := []
    URL := []
    Hash := "abc123".toList }

/-- C8: when the resolve stage decodes a response with an empty
`downloadURL`, `Download` fails with exactly the provider's error message
when one is present and with the generic message otherwise; the filesystem
is untouched and the fetch stage is never entered (the outcome is the same
for every fetch/create/copy behaviour). -/
theorem c8_resolver_errors_thm (b : Book) (key dir : Str) (fs : FS)
    (r : FastDownloadResponse) (hurl : r.downloadURL = [])
    (fetchO : FetchOutcome) (ce : Option Str) (cp : CopyOutcome) :
    (r.error ≠ [] →
      Download b key dir ⟨ResolveOutcome.decoded r, fetchO, ce, cp⟩ fs = (some r.error, fs)) ∧
    (r.error = [] →
      Download b key dir ⟨ResolveOutcome.decoded r, fetchO, ce, cp⟩ fs =
        (some ("failed to get download URL".toList), fs)) ∧
    (∀ (fetchO' : FetchOutcome) (ce' : Option Str) (cp' : CopyOutcome),
      Download b key dir ⟨ResolveOutcome.decoded r, fetchO', ce', cp'⟩ fs =
        Download b key dir ⟨ResolveOutcome.decoded r, fetchO, ce, cp⟩ fs) := by
  refine ⟨?_, ?_, ?_⟩
  · intro hne
    show (if r.downloadURL = [] then _ else _) = _
    rw [if_pos hurl, if_pos hne]
  · intro he
    show (if r.downloadURL = [] then _ else _) = _
    rw [if_pos hurl, if_neg (by simp [he])]
  · intro fetchO' ce' cp'
    show (if r.downloadURL = [] then _ else _) = (if r.downloadURL = [] then _ else _)
    rw [if_pos hurl, if_pos hurl]

/-- C8 witness: the spec scenario — resolve response with empty URL and
error `rate limited` fails with exactly `rate limited`, on an untouched
filesystem. -/
theorem c8_resolver_errors_witness :
    (("rate limited".toList : Str) ≠ []) ∧
    Download sampleBook ("k".toList) ("dest".toList)
      ⟨ResolveOutcome.decoded ⟨[], "rate limited".toList⟩,
        FetchOutcome.resp 200 [1], none, CopyOutcome.complete⟩ [] =
      (some ("rate limited".toList), []) := by
  refine ⟨by decide, ?_⟩
  exact (c8_resolver_errors_thm sampleBook ("k".toList) ("dest".toList) []
    ⟨[], "rate limited".toList⟩ rfl (FetchOutcome.resp 200 [1]) none
    CopyOutcome.complete).1 (by decide)

/-- C3 counterexample: status 201 is a 2xx status, yet `Download` fails with
the transfer error and writes nothing — line 153 of anna.go compares against
`http.StatusOK` (exactly 200), not against the 2xx class, so the claim's
"a 2xx status causes the response body to be streamed" is false at 201. -/
theorem c3_status_counterexample :
    (200 ≤ 201 ∧ 201 ≤ 299) ∧
    Download sampleBook ("k".toList) ("dest".toList)
      ⟨ResolveOutcome.decoded ⟨"u".toList, []⟩,
        FetchOutcome.resp 201 [1, 2, 3], none, CopyOutcome.complete⟩ [] =
      (some ("failed to download file".toList), []) := by
  exact ⟨by decide, rfl⟩

/-- C3 amended: with a non-empty resolved URL, any status other than exactly
200 makes `Download` fail with the transfer error, leaving the filesystem
untouched; status exactly 200 (with the file created and the copy
completing) streams the response body to the destination file. -/
theorem c3_status_amended_thm (b : Book) (key dir : Str) (fs : FS)
    (r : FastDownloadResponse) (hurl : r.downloadURL ≠ [])
    (status : Nat) (body : List Nat) (ce : Option Str) (cp : CopyOutcome) :
    (status ≠ 200 →
      Download b key dir ⟨ResolveOutcome.decoded r, FetchOutcome.resp status body, ce, cp⟩ fs =
        (some ("failed to download file".toList), fs)) ∧
    (status = 200 →
      Download b key dir
          ⟨ResolveOutcome.decoded r, FetchOutcome.resp status body, none, CopyOutcome.complete⟩ fs =
        (none, fsWrite fs (downloadFilePath b dir) body)) := by
  constructor
  · intro hst
    show (if r.downloadURL = [] then _ else _) = _
    rw [if_neg hurl, if_pos hst]
  · intro hst
    subst hst
    show (if r.downloadURL = [] then _ else _) = _
    rw [if_neg hurl, if_neg (by omega)]

/-- C3 witness: a 404 on fetch fails with the transfer error and no file is
created, per the spec scenario. -/
theorem c3_status_amended_witness :
    (404 ≠ 200) ∧
    Download sampleBook ("k".toList) ("dest".toList)
      ⟨ResolveOutcome.decoded ⟨"u".toList, []⟩,
        FetchOutcome.resp 404 [9], none, CopyOutcome.complete⟩ [] =
      (some ("failed to download file".toList), []) := by
  refine ⟨by decide, ?_⟩
  exact (c3_status_amended_thm sampleBook ("k".toList) ("dest".toList) []
    ⟨"u".toList, []⟩ (by decide) 404 [9] none CopyOutcome.complete).1 (by decide)

/-- The download environment of the C4 failing input: successful resolve and
a 200 fetch of a three-byte body, `os.Create` succeeding, and `io.Copy`
erroring after one byte. -/
def interruptedEnv : DownloadEnv :=
  ⟨ResolveOutcome.decoded ⟨"u".toList, []⟩, FetchOutcome.resp 200 [9, 8, 7],
    none, CopyOutcome.interrupted 1 ("unexpected EOF".toList)⟩

/-- C4: evaluation of the code at the failing input. The claim (and the
design contract of spec section 4.4) says no partial file is left behind on
a mid-transfer copy failure, but `os.Create` (line 161 of anna.go) has
already created/truncated the destination before `io.Copy` (line 167) runs,
so the error return leaves the one-byte partial file on disk. -/
theorem c4_interrupted_copy_eval :
    Download sampleBook ("k".toList) ("dest".toList) interruptedEnv [] =
      (some ("unexpected EOF".toList),
        [(downloadFilePath sampleBook ("dest".toList), [9])]) ∧
    fsLookup (Download sampleBook ("k".toList) ("dest".toList) interruptedEnv []).2
      (downloadFilePath sampleBook ("dest".toList)) = some [9] := by
  exact ⟨rfl, rfl⟩

/-- Writing a file makes the new content the one found at the path,
whatever was bound there before (overwrite, no collision check). -/
theorem fsLookup_fsWrite_same (fs : FS) (path : Str) (content : List Nat) :
    fsLookup (fsWrite fs path content) path = some content := by
  unfold fsLookup fsWrite
  rw [List.find?_cons_of_pos _ (by simp)]
  rfl

/-- C9: on a successful download, the file is written exactly at the
destination directory joined with the single filename built from
`{Title}.{Format}` with every path separator replaced — when the format
itself is separator-free this is precisely the separator-neutralized title,
a dot, and the format — and whatever file previously existed at that path
is silently overwritten with the response body. -/
theorem c9_destination_path_thm (b : Book) (key dir : Str) (fs : FS)
    (r : FastDownloadResponse) (hurl : r.downloadURL ≠ []) (body : List Nat) :
    Download b key dir
        ⟨ResolveOutcome.decoded r, FetchOutcome.resp 200 body, none, CopyOutcome.complete⟩ fs =
      (none, fsWrite fs (filepathJoin dir (downloadFilename b)) body) ∧
    ('/' ∉ b.Format →
      downloadFilename b =
        (b.Title.map (fun c => if c = '/' then '_' else c)) ++ '.' :: b.Format) ∧
    fsLookup
      (Download b key dir
        ⟨ResolveOutcome.decoded r, FetchOutcome.resp 200 body, none, CopyOutcome.complete⟩ fs).2
      (downloadFilePath b dir) = some body := by
  have hrun : Download b key dir
      ⟨ResolveOutcome.decoded r, FetchOutcome.resp 200 body, none, CopyOutcome.complete⟩ fs =
      (none, fsWrite fs (filepathJoin dir (downloadFilename b)) body) := by
    show (if r.downloadURL = [] then _ else _) = _
    rw [if_neg hurl, if_neg (by omega)]
    rfl
  refine ⟨hrun, ?_, ?_⟩
  · intro hfmt
    unfold downloadFilename
    rw [List.map_append]
    congr 1
    show List.map _ ('.' :: b.Format) = '.' :: b.Format
    rw [List.map_cons, if_neg (by decide)]
    congr 1
    have : ∀ c ∈ b.Format, (if c = '/' then '_' else c) = c := by
      intro c hc
      rw [if_neg]
      intro h
      exact hfmt (h ▸ hc)
    calc b.Format.map (fun c => if c = '/' then '_' else c)
        = b.Format.map id := List.map_congr_left this
      _ = b.Format := List.map_id b.Format
  · rw [hrun]
    exact fsLookup_fsWrite_same fs (downloadFilePath b dir) body

/-- A filesystem already holding a stale file at `sampleBook`'s destination
under `dest`, to exercise the overwrite. -/
def staleFS : FS := [(downloadFilePath sampleBook ("dest".toList), [0, 0])]

/-- C9 witness: a successful download of body `[7]` for `sampleBook` (title
`a/b`, format `epub`) under `dest` writes over the stale file, and the
content found at the destination path afterwards is `[7]`. -/
theorem c9_destination_path_witness :
    (("u".toList : Str) ≠ [] ∧ '/' ∉ sampleBook.Format) ∧
    Download sampleBook ("k".toList) ("dest".toList)
      ⟨ResolveOutcome.decoded ⟨"u".toList, []⟩,
        FetchOutcome.resp 200 [7], none, CopyOutcome.complete⟩ staleFS =
      (none, fsWrite staleFS (filepathJoin ("dest".toList) (downloadFilename sampleBook)) [7]) ∧
    fsLookup
      (Download sampleBook ("k".toList) ("dest".toList)
        ⟨ResolveOutcome.decoded ⟨"u".toList, []⟩,
          FetchOutcome.resp 200 [7], none, CopyOutcome.complete⟩ staleFS).2
      (downloadFilePath sampleBook ("dest".toList)) = some [7] := by
  refine ⟨⟨by decide, by decide⟩, ?_, ?_⟩
  · exact (c9_destination_path_thm sampleBook ("k".toList) ("dest".toList) staleFS
      ⟨"u".toList, []⟩ (by decide) [7]).1
  · exact (c9_destination_path_thm sampleBook ("k".toList) ("dest".toList) staleFS
      ⟨"u".toList, []⟩ (by decide) [7]).2.2

/-- C10: the separator replacement is applied to the concatenation of title,
dot and format, so for every record — whatever its `Format` holds — the
filename passed to the join contains no `/`, and for a non-empty destination
directory the destination path is that directory, a separator, and the
filename: a direct child of the destination directory. -/
theorem c10_single_segment_thm (b : Book) :
    '/' ∉ downloadFilename b ∧
    (∀ dir : Str, dir ≠ [] →
      downloadFilePath b dir = dir ++ '/' :: downloadFilename b) := by
  constructor
  · intro hmem
    unfold downloadFilename at hmem
    rcases List.mem_map.mp hmem with ⟨c, _, hEq⟩
    by_cases h : c = '/'
    · rw [if_pos h] at hEq
      exact absurd hEq (by decide)
    · rw [if_neg h] at hEq
      exact h hEq
  · intro dir hdir
    unfold downloadFilePath filepathJoin
    rw [if_neg hdir]

/-- C10 witness: `sampleBook` has a slash in its title (`a/b`) and its
destination under `dest` is the direct child `dest/a_b.epub`. -/
theorem c10_single_segment_witness :
    (("dest".toList : Str) ≠ []) ∧
    downloadFilePath sampleBook ("dest".toList) =
      "dest".toList ++ '/' :: downloadFilename sampleBook := by
  exact ⟨by decide,
    (c10_single_segment_thm sampleBook).2 ("dest".toList) (by decide)⟩
